import Mathlib

/-!
Shallow embedding of the InstantUnit C++11 unit-test framework
(`include/InstantUnit/InstantUnit.h`) and proofs about its execution engine:

* test-case execution (`FullContextForTestCase::ExecuteTestCase`, lines
  1301-1330, and `SimpleStandaloneTestRunner::RunTest`, lines 1521-1533);
* the session entry points (`RunTests`, lines 1671-1706, and `RunTets`,
  lines 1708-1711);
* the statistics counters of `FullContextForTestSession` (lines 953-1058)
  and `FullContextForTestSuite` (lines 1063-1241) and their update events;
* the `ProcessTestCases` loop (lines 1144-1195) as driven by
  `TestSuiteRunner::RunTestSuite` (lines 1580-1663);
* the `CollectInstancesOf` intrusive registration list (lines 1394-1453),
  modelled at pointer level (arena of nodes, index-valued next links).

C++ exceptions used as control flow (`AssertCheckFailed`,
`SanityCheckFailed`, `std::exception`, `...`) are embedded as an explicit
outcome type `BodyOutcome`.  The C++ `unsigned` statistics counters wrap, so
increments are taken modulo `2 ^ 32` (the width of `unsigned` on the usual
ILP32/LP64/LLP64 platforms).
-/

namespace InstantUnit

/-- Signals a test-case body can raise.  The first two are the exception
classes `AssertCheckFailed` and `SanityCheckFailed` (source lines 872-875);
the last two stand for the `std::exception` and `catch(...)` handler arms
of `FullContextForTestCase::ExecuteTestCase` and
`FullContextForTestSuite::ProcessTestCases`. -/
inductive TestSignal where
  | assertCheckFailed
  | sanityCheckFailed
  | stdException
  | unknownException
  deriving DecidableEq

/-- What a test-case body (`Runner_DoTest` / a `TEST_CASE` body) does when
run: either it completes normally, leaving the by-reference
`allAssertsAndExpectsPassedFlag` at the given value, or it raises one of the
control-flow signals. -/
inductive BodyOutcome where
  | completed (allAssertsAndExpectsPassedFlag : Bool)
  | raised (signal : TestSignal)
  deriving DecidableEq

/-- One check statement inside a test-case body, with the boolean outcome of
its condition.  `expect` is the EXPECT macro, `assert` the ASSERT macro,
`sanityForCase` the SANITY_FOR_TEST_CASE macro. -/
inductive Check where
  | expect (pass : Bool)
  | assert (pass : Bool)
  | sanityForCase (pass : Bool)
  deriving DecidableEq

/-- Whether evaluating this check raises a signal (aborting the rest of the
body): a failed ASSERT raises `AssertCheckFailed`, a failed
SANITY_FOR_TEST_CASE raises `SanityCheckFailed`; EXPECT never raises. -/
def Check.raisesSignal : Check → Bool
  | .assert false => true
  | .sanityForCase false => true
  | _ => false

/-- Modelled from the spec: the `ASSERT`/`EXPECT`/`SANITY_CHECK` macro
bodies are empty stubs in the header (lines 320, 329-331, 341), so the
check-evaluation semantics is taken from the sentences of the severity
table and the header documentation (lines 43-48, 291-293, 325-328,
333-340): a body is a sequence of checks evaluated in order; a failed
EXPECT clears the `allAssertsAndExpectsPassedFlag` and continues; a failed
ASSERT raises `AssertCheckFailed`, a failed SANITY_FOR_TEST_CASE raises
`SanityCheckFailed`, each ending the body at that point (C++ `throw`
semantics); passing checks leave the flag unchanged.  The result is the
list of checks actually evaluated and the outcome of the body. -/
def evalChecks : List Check → Bool → List Check × BodyOutcome
  | [], flag => ([], .completed flag)
  | .expect pass :: rest, flag =>
      let r := evalChecks rest (flag && pass)
      (.expect pass :: r.1, r.2)
  | .assert true :: rest, flag =>
      let r := evalChecks rest flag
      (.assert true :: r.1, r.2)
  | .assert false :: _, _ => ([.assert false], .raised .assertCheckFailed)
  | .sanityForCase true :: rest, flag =>
      let r := evalChecks rest flag
      (.sanityForCase true :: r.1, r.2)
  | .sanityForCase false :: _, _ =>
      ([.sanityForCase false], .raised .sanityCheckFailed)

/-- State of `details::FullContextForTestCase` (source lines 1245-1349):
the identity fields from the constructor and the two private flags, both
initialized `false` (lines 1340, 1348) and never assigned anywhere in the
header. -/
structure FullContextForTestCase where
  testCaseName : String
  file : String
  line : Nat
  ready : Bool := false
  isPassed : Bool := false
  deriving DecidableEq

/-- Constructor `FullContextForTestCase(...)` (lines 1248-1257): stores the
identity fields; `ready` and `isPassed` keep their `false` initializers. -/
def mkFullContextForTestCase (testCaseName file : String) (line : Nat) :
    FullContextForTestCase :=
  { testCaseName := testCaseName, file := file, line := line }

/-- Method `FullContextForTestCase::IsErrorOnStart` (lines 1262-1264): the body is
`return true; //TODO:` - it returns `true` unconditionally. -/
def FullContextForTestCase.IsErrorOnStart (_ : FullContextForTestCase) :
    Bool :=
  true

/-- Method `FullContextForTestCase::IsPassed` (lines 1269-1272): `CheckIfReady`
(lines 1334-1338) is an empty TODO stub, then the stored `isPassed` field
is returned. -/
def FullContextForTestCase.IsPassed (c : FullContextForTestCase) : Bool :=
  c.isPassed

/-- Method `FullContextForTestCase::ExecuteTestCase` (lines 1301-1330): runs the
body; on normal completion returns the `allAssertsAndExpectsPassedFlag`
(initialized `true` by the caller-side flag in the C++, already folded into
`BodyOutcome.completed`); every `catch` arm falls through to `return
false`.  No member of the context is assigned, so the context comes back
unchanged. -/
def FullContextForTestCase.ExecuteTestCase (c : FullContextForTestCase)
    (body : BodyOutcome) : Bool × FullContextForTestCase :=
  match body with
  | .completed flag => (flag, c)
  | .raised _ => (false, c)

/-- One registered standalone `TEST` unit: the data held by
`details::SimpleStandaloneTestRunner` (lines 1485-1537) - file, line, name -
plus the behaviour of its `Runner_DoTest` body. -/
structure SimpleStandaloneTestRunner where
  file : String
  line : Nat
  testName : String
  body : BodyOutcome
  deriving DecidableEq

/-- Method `SimpleStandaloneTestRunner::RunTest` (lines 1521-1533): builds a
`FullContextForTestCase` from the name/file/line of the test and returns the
result of `ExecuteTestCase` on the body. -/
def SimpleStandaloneTestRunner.RunTest (t : SimpleStandaloneTestRunner) :
    Bool :=
  ((mkFullContextForTestCase t.testName t.file t.line).ExecuteTestCase
    t.body).1

/-- Entry point `InstantUnit::RunTests()` (lines 1671-1706): iterates the registered
`SimpleStandaloneTestRunner` instances in registration order, accumulating
`allPassed = test.RunTest(...) && allPassed` starting from `true`.  The
session and DEFAULT-suite context objects it constructs (lines 1673-1683)
do not influence the returned value, and the named-suite iteration (lines
1696-1703) is inside a block comment in the source, so it contributes
nothing. -/
def RunTests (standaloneTests : List SimpleStandaloneTestRunner) : Bool :=
  standaloneTests.foldl
    (fun allPassed test => test.RunTest && allPassed) true

/-- A unit as it would appear in the execution order of a session. -/
inductive ExecutedUnit where
  | standaloneCase (name : String)
  | namedSuite (name : String)
  deriving DecidableEq

/-- The sequence of units `RunTests()` actually executes (lines 1671-1706):
only the `SimpleStandaloneTestRunner` instances, in registration order.
The `TestSuiteRunner` iteration (lines 1694-1704) is commented out with a
block comment `/* ... */` in the source, so registered named suites never
appear, whatever was registered. -/
def RunTestsExecutedUnits (standaloneTests : List SimpleStandaloneTestRunner)
    (_namedSuiteNames : List String) : List ExecutedUnit :=
  standaloneTests.map (fun t => .standaloneCase t.testName)

/-- Entry point `InstantUnit::RunTets(int argc, char* argv[])` (lines 1708-1711): the
body is `//TODO ...` followed by `return 0;` - the arguments are ignored,
no test is run, and the result is always `0`. -/
def RunTets (_argc : Nat) (_argv : List String) : Nat :=
  0

/-- Wrap modulus of the C++ `unsigned` statistics counters. -/
def unsignedWrap : Nat := 2 ^ 32

/-- State of `details::FullContextForTestSession` (lines 953-1058): the
session name, the `ready` flag and the three `unsigned` counters, all
starting at zero. -/
structure FullContextForTestSession where
  testSessionName : String
  ready : Bool := false
  testCasesTotalExecuted : Nat := 0
  testCasesTotalPassed : Nat := 0
  testCasesTotalFailed : Nat := 0
  deriving DecidableEq

/-- The name-taking constructor (lines 967-969).  (The default constructor
additionally derives the name from the wall clock, which is outside this
embedding.) -/
def mkFullContextForTestSession (name : String) :
    FullContextForTestSession :=
  { testSessionName := name }

/-- Method `FullContextForTestSession::IsErrorOnStart` (lines 974-976): the body
is `return true; //TODO:`. -/
def FullContextForTestSession.IsErrorOnStart
    (_ : FullContextForTestSession) : Bool :=
  true

/-- Method `FullContextForTestSession::IsPassed` (lines 981-983): the body is
`return false; //TODO:`. -/
def FullContextForTestSession.IsPassed (_ : FullContextForTestSession) :
    Bool :=
  false

/-- Method `FullContextForTestSession::OnTestCaseStart` (lines 1020-1022):
`++testCasesTotalExecuted` on an `unsigned`. -/
def FullContextForTestSession.OnTestCaseStart
    (s : FullContextForTestSession) : FullContextForTestSession :=
  { s with
    testCasesTotalExecuted := (s.testCasesTotalExecuted + 1) % unsignedWrap }

/-- Method `FullContextForTestSession::OnTestCasePassed` (lines 1024-1026). -/
def FullContextForTestSession.OnTestCasePassed
    (s : FullContextForTestSession) : FullContextForTestSession :=
  { s with
    testCasesTotalPassed := (s.testCasesTotalPassed + 1) % unsignedWrap }

/-- Method `FullContextForTestSession::OnTestCaseFailed` (lines 1028-1030). -/
def FullContextForTestSession.OnTestCaseFailed
    (s : FullContextForTestSession) : FullContextForTestSession :=
  { s with
    testCasesTotalFailed := (s.testCasesTotalFailed + 1) % unsignedWrap }

/-- Method `FullContextForTestSession::OnTestSessionComplete` (lines 1033-1037):
only the `ready` flag is set (`OnActivityComplete` records timestamps,
outside this embedding); the counters are untouched. -/
def FullContextForTestSession.OnTestSessionComplete
    (s : FullContextForTestSession) : FullContextForTestSession :=
  { s with ready := true }

/-- State of `details::FullContextForTestSuite` (lines 1063-1241): name and
placement from the constructor, the `ready` flag, and the three `unsigned`
counters, all starting at zero.  The C++ object also holds a reference to
its parent session; here the session travels alongside explicitly. -/
structure FullContextForTestSuite where
  testSuiteName : String
  file : String
  line : Nat
  ready : Bool := false
  testCasesExecuted : Nat := 0
  testCasesPassed : Nat := 0
  testCasesFailed : Nat := 0
  deriving DecidableEq

/-- Constructor `FullContextForTestSuite(...)` (lines 1067-1076). -/
def mkFullContextForTestSuite (name file : String) (line : Nat) :
    FullContextForTestSuite :=
  { testSuiteName := name, file := file, line := line }

/-- Method `FullContextForTestSuite::IsErrorOnStart` (lines 1081-1083): the body
is `return true; //TODO:`. -/
def FullContextForTestSuite.IsErrorOnStart (_ : FullContextForTestSuite) :
    Bool :=
  true

/-- Method `FullContextForTestSuite::onTestCaseStart` (lines 1222-1225): first
`parentTestSession.OnTestCaseStart()`, then `++testCasesExecuted`.  Takes
and returns the (suite, parent session) pair. -/
def FullContextForTestSuite.onTestCaseStart (su : FullContextForTestSuite)
    (se : FullContextForTestSession) :
    FullContextForTestSuite × FullContextForTestSession :=
  ({ su with testCasesExecuted := (su.testCasesExecuted + 1) % unsignedWrap },
   se.OnTestCaseStart)

/-- Method `FullContextForTestSuite::onTestCasePassed` (lines 1227-1230). -/
def FullContextForTestSuite.onTestCasePassed (su : FullContextForTestSuite)
    (se : FullContextForTestSession) :
    FullContextForTestSuite × FullContextForTestSession :=
  ({ su with testCasesPassed := (su.testCasesPassed + 1) % unsignedWrap },
   se.OnTestCasePassed)

/-- Method `FullContextForTestSuite::onTestCaseFailed` (lines 1232-1235). -/
def FullContextForTestSuite.onTestCaseFailed (su : FullContextForTestSuite)
    (se : FullContextForTestSession) :
    FullContextForTestSuite × FullContextForTestSession :=
  ({ su with testCasesFailed := (su.testCasesFailed + 1) % unsignedWrap },
   se.OnTestCaseFailed)

/-- Method `FullContextForTestSuite::onTestSuiteComplete` (lines 1237-1240): only
sets `ready`. -/
def FullContextForTestSuite.onTestSuiteComplete
    (su : FullContextForTestSuite) : FullContextForTestSuite :=
  { su with ready := true }

/-- One iteration of the `ProcessTestCases` loop body (lines 1156-1190) for
the suite at index `i` under a session holding `n` suite contexts, with
`b` the `testCaseExecutionResult` of the executed case: `onTestCaseStart`,
then exactly one of `onTestCasePassed` / `onTestCaseFailed`, each call
updating both the own counters of the suite and those of the parent session. -/
def sessionTraceStep {n : Nat}
    (st : FullContextForTestSession × (Fin n → FullContextForTestSuite))
    (ev : Fin n × Bool) :
    FullContextForTestSession × (Fin n → FullContextForTestSuite) :=
  let started := FullContextForTestSuite.onTestCaseStart (st.2 ev.1) st.1
  let done :=
    if ev.2 then FullContextForTestSuite.onTestCasePassed started.1 started.2
    else FullContextForTestSuite.onTestCaseFailed started.1 started.2
  (done.2, Function.update st.2 ev.1 done.1)

/-- A session run over `n` suite contexts, replayed from a trace of
processed-case events: start from a fresh session context and `n` fresh
suite contexts (all counters zero, as every constructor leaves them) and
apply `sessionTraceStep` for each event in order. -/
def runTestSessionTrace (n : Nat) (trace : List (Fin n × Bool)) :
    FullContextForTestSession × (Fin n → FullContextForTestSuite) :=
  trace.foldl sessionTraceStep
    (mkFullContextForTestSession "Test session",
     fun _ => mkFullContextForTestSuite "" "" 0)

/-- Ghost (unbounded) counters mirroring a session run: true number of
executed, passed and failed cases, and the true per-suite executed
counts. -/
structure CounterGhost (n : Nat) where
  executed : Nat
  passed : Nat
  failed : Nat
  perSuite : Fin n → Nat

/-- Ghost counterpart of `sessionTraceStep`, counting without wrapping. -/
def ghostStep {n : Nat} (g : CounterGhost n) (ev : Fin n × Bool) :
    CounterGhost n :=
  { executed := g.executed + 1
    passed := if ev.2 then g.passed + 1 else g.passed
    failed := if ev.2 then g.failed else g.failed + 1
    perSuite := Function.update g.perSuite ev.1 (g.perSuite ev.1 + 1) }

/-- Ghost counters accumulated over a whole trace, from zero. -/
def ghostRun {n : Nat} (trace : List (Fin n × Bool)) : CounterGhost n :=
  trace.foldl ghostStep
    { executed := 0, passed := 0, failed := 0, perSuite := fun _ => 0 }

/-- The stored (wrapped) counters of a session state are the residues of
the ghost counters modulo `unsignedWrap`. -/
def CounterSpec {n : Nat}
    (st : FullContextForTestSession × (Fin n → FullContextForTestSuite))
    (g : CounterGhost n) : Prop :=
  st.1.testCasesTotalExecuted = g.executed % unsignedWrap
  ∧ st.1.testCasesTotalPassed = g.passed % unsignedWrap
  ∧ st.1.testCasesTotalFailed = g.failed % unsignedWrap
  ∧ ∀ i : Fin n, (st.2 i).testCasesExecuted = g.perSuite i % unsignedWrap

/-- Result of `executeNextTestCase()` as observed by the `try`/`catch` of
`ProcessTestCases` (lines 1159-1180): `testCaseExecutionResult` starts
`false`, the value of the call is stored on normal return, and every `catch`
arm leaves it `false`. -/
def suiteLevelCaseResult : BodyOutcome → Bool
  | .completed flag => flag
  | .raised _ => false

/-- One answer of the `getNextTestCaseExecutorFunction` closure, plus how
many times the setup and teardown statements of the suite body ran while
producing it (the suite body is the only code that can run them). -/
structure IteratorStep where
  executor : Option BodyOutcome
  setupRuns : Nat
  teardownRuns : Nat

/-- Mutable state threaded through the `ProcessTestCases` loop: how many
times the iterator was called, total setup/teardown executions observed,
the `allNestedTCSucceeded` accumulator (line 1147), and the suite/session
contexts whose counters the loop updates. -/
structure SuiteLoopState where
  iterations : Nat := 0
  setupRuns : Nat := 0
  teardownRuns : Nat := 0
  allNestedTCSucceeded : Bool := true
  suite : FullContextForTestSuite
  session : FullContextForTestSession

/-- Outcome of running the `for(;;)` of `ProcessTestCases` for a bounded
number of iterations: either the loop hit its `break` (iterator returned
an empty executor) and the function returned, or the iteration bound was
exhausted with the loop still running. -/
inductive SuiteLoopResult where
  | finished (allNestedTCSucceeded : Bool) (st : SuiteLoopState)
  | runningStill (st : SuiteLoopState)

/-- The loop state carried by either outcome. -/
def SuiteLoopResult.state : SuiteLoopResult → SuiteLoopState
  | .finished _ st => st
  | .runningStill st => st

/-- Method `FullContextForTestSuite::ProcessTestCases` (lines 1144-1195), indexed
by a fuel bound on loop iterations.  `getNext k` is the value of the
`k`-th call of `getNextTestCaseExecutorFunction`: if its executor is empty
the loop breaks and `onTestSuiteComplete` runs; otherwise
`onTestCaseStart`, the guarded execution of the case, then exactly one of
`onTestCasePassed` / `onTestCaseFailed`, and the `allNestedTCSucceeded`
accumulation (line 1190). -/
def ProcessTestCases (getNext : Nat → IteratorStep) :
    Nat → SuiteLoopState → SuiteLoopResult
  | 0, st => .runningStill st
  | fuel + 1, st =>
      let step := getNext st.iterations
      let st1 : SuiteLoopState :=
        { st with
          iterations := st.iterations + 1
          setupRuns := st.setupRuns + step.setupRuns
          teardownRuns := st.teardownRuns + step.teardownRuns }
      match step.executor with
      | none =>
          .finished st1.allNestedTCSucceeded
            { st1 with suite := st1.suite.onTestSuiteComplete }
      | some outcome =>
          let started :=
            FullContextForTestSuite.onTestCaseStart st1.suite st1.session
          let r := suiteLevelCaseResult outcome
          let done :=
            if r then
              FullContextForTestSuite.onTestCasePassed started.1 started.2
            else
              FullContextForTestSuite.onTestCaseFailed started.1 started.2
          ProcessTestCases getNext fuel
            { st1 with
              suite := done.1
              session := done.2
              allNestedTCSucceeded := st1.allNestedTCSucceeded && r }

/-- The case iterator `TestSuiteRunner::RunTestSuite` actually passes to
`ProcessTestCases` (lines 1605-1612): every call returns the executor
`[&]()->bool{ return false; }`.  It never returns an empty function, and it
never invokes `Runner_DoNextTest` (the suite body holding the setup and
teardown statements - the replay algorithm that would is disabled by
`#if 0`, lines 1616-1661), so each step performs zero setup and zero
teardown executions. -/
def runTestSuiteGetNext : Nat → IteratorStep := fun _ =>
  { executor := some (.completed false), setupRuns := 0, teardownRuns := 0 }

/-- Method `TestSuiteRunner::RunTestSuite` (lines 1580-1663) up to the given loop
bound: builds the suite context (lines 1600-1603) and calls
`ProcessTestCases` with the constant dummy iterator. -/
def TestSuiteRunner.RunTestSuite (session : FullContextForTestSession)
    (suiteName file : String) (line : Nat) (fuel : Nat) : SuiteLoopResult :=
  ProcessTestCases runTestSuiteGetNext fuel
    { suite := mkFullContextForTestSuite suiteName file line
      session := session }

/-- Pointer-level model of the `CollectInstancesOf<DerivedT>` intrusive
list (lines 1394-1453): an arena of nodes in creation order (`values`,
node id = position), the `next` pointer of each node as an optional node id
(`nextLinks`), the static `head` pointer, and the target of the static
`pointerToTailPtr` - `none` while it still points at `head`, `some t` once
it points at the `next` field of node `t`. -/
structure CollectInstancesOf (α : Type) where
  values : List α
  nextLinks : List (Option Nat)
  head : Option Nat
  tailSlot : Option Nat

/-- The initial statics (lines 1450-1453): `head = nullptr`,
`pointerToTailPtr = &head`, no nodes. -/
def CollectInstancesOf.emptyRegistry {α : Type} : CollectInstancesOf α :=
  { values := [], nextLinks := [], head := none, tailSlot := none }

/-- The protected constructor (lines 1433-1437): the `next` of the new node is
null, `*pointerToTailPtr = this` (writing either `head` or the previous
`next` of the previous tail), and `pointerToTailPtr = &this->next`. -/
def CollectInstancesOf.registerInstance {α : Type}
    (r : CollectInstancesOf α) (v : α) : CollectInstancesOf α :=
  let newId := r.values.length
  { values := r.values ++ [v]
    nextLinks :=
      (match r.tailSlot with
       | none => r.nextLinks
       | some t => r.nextLinks.set t (some newId)) ++ [none]
    head := match r.tailSlot with
            | none => some newId
            | some _ => r.head
    tailSlot := some newId }

/-- Registering a whole discovery pass, one unit at a time, into the empty
registry. -/
def CollectInstancesOf.registerAll {α : Type} (vs : List α) :
    CollectInstancesOf α :=
  vs.foldl CollectInstancesOf.registerInstance CollectInstancesOf.emptyRegistry

/-- The pointer walk of `ForEachInstance` (lines 1411-1413), from a node
pointer, bounded by fuel; only `head` and the `next` fields are read, and
a dangling pointer (no such node) stops the walk. -/
def CollectInstancesOf.visitFrom {α : Type} (r : CollectInstancesOf α) :
    Nat → Option Nat → List α
  | _, none => []
  | 0, some _ => []
  | fuel + 1, some i =>
      match r.values[i]?, r.nextLinks[i]? with
      | some v, some nx => v :: r.visitFrom fuel nx
      | _, _ => []


/-- Method `CollectInstancesOf::ForEachInstance` (lines 1402-1414): visit every
node reachable from `head`; the arena size bounds the walk (in a
well-formed registry the chain has exactly that many nodes). -/
def CollectInstancesOf.ForEachInstance {α : Type}
    (r : CollectInstancesOf α) : List α :=
  r.visitFrom r.values.length r.head

/-- The next-link block of a straight chain of `m` nodes whose ids start at
`i`: every node points at the next id, the last one is null. -/
def chainLinks (i : Nat) : Nat → List (Option Nat)
  | 0 => []
  | m + 1 => (if m = 0 then none else some (i + 1)) :: chainLinks (i + 1) m

/-- The registry shape produced by registering `vs` in order: arena `vs`,
one straight chain of links, head at node 0, tail at the last node. -/
def canonicalRegistry {α : Type} (vs : List α) : CollectInstancesOf α :=
  { values := vs
    nextLinks := chainLinks 0 vs.length
    head := if vs.length = 0 then none else some 0
    tailSlot := if vs.length = 0 then none else some (vs.length - 1) }

/-- Folding the `allPassed = test.RunTest(...) && allPassed` accumulation of
`RunTests` over a list is conjunction of all individual results with the
initial accumulator. -/
theorem runTests_foldl_all (ts : List SimpleStandaloneTestRunner) :
    ∀ acc : Bool,
      ts.foldl (fun allPassed test => test.RunTest && allPassed) acc =
        (ts.all SimpleStandaloneTestRunner.RunTest && acc) := by
  induction ts with
  | nil => intro acc; simp
  | cons t ts ih =>
      intro acc
      rw [List.foldl_cons, ih, List.all_cons]
      cases t.RunTest <;> cases ts.all SimpleStandaloneTestRunner.RunTest <;>
        simp

/-- Evaluating a body that reaches a failed ASSERT: every check before it is
evaluated (none of them raises), the failed ASSERT raises
`AssertCheckFailed`, and nothing after it is evaluated. -/
theorem evalChecks_assert_fail (pre : List Check) :
    ∀ (post : List Check) (flag : Bool),
      (∀ c ∈ pre, c.raisesSignal = false) →
      evalChecks (pre ++ Check.assert false :: post) flag =
        (pre ++ [Check.assert false], .raised .assertCheckFailed) := by
  induction pre with
  | nil => intro post flag _; simp [evalChecks]
  | cons c pre ih =>
      intro post flag hpre
      have hc : c.raisesSignal = false := hpre c (by simp)
      have hrest : ∀ x ∈ pre, x.raisesSignal = false := by
        intro x hx; exact hpre x (by simp [hx])
      match c with
      | .expect p =>
          simp [evalChecks, ih post (flag && p) hrest]
      | .assert true =>
          simp [evalChecks, ih post flag hrest]
      | .assert false => simp [Check.raisesSignal] at hc
      | .sanityForCase true =>
          simp [evalChecks, ih post flag hrest]
      | .sanityForCase false => simp [Check.raisesSignal] at hc

/-- Under the dummy iterator `RunTestSuite` supplies, the
`ProcessTestCases` loop never reaches its `break` within any iteration
bound. -/
theorem processTestCases_dummy_spins (fuel : Nat) :
    ∀ st : SuiteLoopState,
      ∃ st', ProcessTestCases runTestSuiteGetNext fuel st =
        SuiteLoopResult.runningStill st' := by
  induction fuel with
  | zero => intro st; exact ⟨st, rfl⟩
  | succ k ih =>
      intro st
      simpa only [ProcessTestCases, runTestSuiteGetNext,
        suiteLevelCaseResult] using ih _

/-- Under the dummy iterator `RunTestSuite` supplies, no iteration of
`ProcessTestCases` ever performs a setup or teardown execution: the counts
stay at their initial values. -/
theorem processTestCases_dummy_no_setup (fuel : Nat) :
    ∀ st : SuiteLoopState,
      (ProcessTestCases runTestSuiteGetNext fuel st).state.setupRuns =
          st.setupRuns
        ∧ (ProcessTestCases runTestSuiteGetNext fuel st).state.teardownRuns =
          st.teardownRuns := by
  induction fuel with
  | zero => intro st; exact ⟨rfl, rfl⟩
  | succ k ih =>
      intro st
      simpa only [ProcessTestCases, runTestSuiteGetNext,
        suiteLevelCaseResult] using ih _

/-- C1: the command-line entry point is claimed to return exit code 0 iff
every executed test passed.  In the code, `RunTets(argc, argv)` ignores its
arguments, runs nothing and returns 0 unconditionally; here it returns 0
even though the only registered test of the session raises `AssertCheckFailed`
(so `RunTests()` itself reports failure). -/
theorem c1_runTets_returns_zero_despite_failure :
    RunTets 1 ["app"] = 0
      ∧ RunTests [⟨"main.cpp", 15, "My test name",
          .raised .assertCheckFailed⟩] = false := by
  exact ⟨rfl, rfl⟩

/-- C2: `RunTests()` returns `true` iff every standalone test case it
executed passed (each `RunTest` result is the verdict of the test case; named
suites are not executed at all by this entry point). -/
theorem c2_runTests_true_iff_all_executed_passed
    (tests : List SimpleStandaloneTestRunner) :
    RunTests tests = true ↔ ∀ t ∈ tests, t.RunTest = true := by
  unfold RunTests
  rw [runTests_foldl_all]
  simp [List.all_eq_true]

/-- C3: the claim says named `TEST_SUITE`s are executed after the standalone
cases.  In the code the named-suite iteration of `RunTests` is commented
out: with one standalone test "T1" and one registered named suite "SuiteA",
the executed units are exactly the standalone case - the suite never runs. -/
theorem c3_named_suite_never_executed :
    RunTestsExecutedUnits [⟨"t.cpp", 3, "T1", .completed true⟩] ["SuiteA"] =
      [.standaloneCase "T1"] := by
  exact rfl

/-- C4: the claim says a full suite run executes setup and teardown exactly
`N` times for `N` declared cases.  In the code `TestSuiteRunner::RunTestSuite`
never invokes the suite body (the replay algorithm is disabled and the
dummy iterator runs no setup/teardown), so after any number of loop
iterations both counts are still zero. -/
theorem c4_suite_setup_teardown_never_run
    (session : FullContextForTestSession) (suiteName file : String)
    (line fuel : Nat) :
    (TestSuiteRunner.RunTestSuite session suiteName file line
        fuel).state.setupRuns = 0
      ∧ (TestSuiteRunner.RunTestSuite session suiteName file line
        fuel).state.teardownRuns = 0 := by
  exact processTestCases_dummy_no_setup fuel _

/-- One processed-case event keeps every stored (wrapped) counter the
residue of its ghost (unbounded) counter. -/
theorem counterSpec_step {n : Nat}
    (st : FullContextForTestSession × (Fin n → FullContextForTestSuite))
    (g : CounterGhost n) (ev : Fin n × Bool) (h : CounterSpec st g) :
    CounterSpec (sessionTraceStep st ev) (ghostStep g ev) := by
  obtain ⟨he, hp, hf, hs⟩ := h
  obtain ⟨i, b⟩ := ev
  cases b
  case false =>
    refine ⟨?_, ?_, ?_, fun j => ?_⟩
    · simp [sessionTraceStep, ghostStep,
        FullContextForTestSuite.onTestCaseStart,
        FullContextForTestSuite.onTestCaseFailed,
        FullContextForTestSession.OnTestCaseStart,
        FullContextForTestSession.OnTestCaseFailed, he, Nat.mod_add_mod]
    · simp [sessionTraceStep, ghostStep,
        FullContextForTestSuite.onTestCaseStart,
        FullContextForTestSuite.onTestCaseFailed,
        FullContextForTestSession.OnTestCaseStart,
        FullContextForTestSession.OnTestCaseFailed, hp]
    · simp [sessionTraceStep, ghostStep,
        FullContextForTestSuite.onTestCaseStart,
        FullContextForTestSuite.onTestCaseFailed,
        FullContextForTestSession.OnTestCaseStart,
        FullContextForTestSession.OnTestCaseFailed, hf, Nat.mod_add_mod]
    · rcases eq_or_ne j i with rfl | hne
      · simp [sessionTraceStep, ghostStep,
          FullContextForTestSuite.onTestCaseStart,
          FullContextForTestSuite.onTestCaseFailed,
          FullContextForTestSession.OnTestCaseStart,
          FullContextForTestSession.OnTestCaseFailed,
          Function.update_same, hs j, Nat.mod_add_mod]
      · simp [sessionTraceStep, ghostStep,
          FullContextForTestSuite.onTestCaseStart,
          FullContextForTestSuite.onTestCaseFailed,
          FullContextForTestSession.OnTestCaseStart,
          FullContextForTestSession.OnTestCaseFailed,
          Function.update_noteq hne, hs j]
  case true =>
    refine ⟨?_, ?_, ?_, fun j => ?_⟩
    · simp [sessionTraceStep, ghostStep,
        FullContextForTestSuite.onTestCaseStart,
        FullContextForTestSuite.onTestCasePassed,
        FullContextForTestSession.OnTestCaseStart,
        FullContextForTestSession.OnTestCasePassed, he, Nat.mod_add_mod]
    · simp [sessionTraceStep, ghostStep,
        FullContextForTestSuite.onTestCaseStart,
        FullContextForTestSuite.onTestCasePassed,
        FullContextForTestSession.OnTestCaseStart,
        FullContextForTestSession.OnTestCasePassed, hp, Nat.mod_add_mod]
    · simp [sessionTraceStep, ghostStep,
        FullContextForTestSuite.onTestCaseStart,
        FullContextForTestSuite.onTestCasePassed,
        FullContextForTestSession.OnTestCaseStart,
        FullContextForTestSession.OnTestCasePassed, hf]
    · rcases eq_or_ne j i with rfl | hne
      · simp [sessionTraceStep, ghostStep,
          FullContextForTestSuite.onTestCaseStart,
          FullContextForTestSuite.onTestCasePassed,
          FullContextForTestSession.OnTestCaseStart,
          FullContextForTestSession.OnTestCasePassed,
          Function.update_same, hs j, Nat.mod_add_mod]
      · simp [sessionTraceStep, ghostStep,
          FullContextForTestSuite.onTestCaseStart,
          FullContextForTestSuite.onTestCasePassed,
          FullContextForTestSession.OnTestCaseStart,
          FullContextForTestSession.OnTestCasePassed,
          Function.update_noteq hne, hs j]

/-- The residue relation is preserved along a whole trace. -/
theorem counterSpec_foldl {n : Nat} (trace : List (Fin n × Bool)) :
    ∀ st g, CounterSpec st g →
      CounterSpec (trace.foldl sessionTraceStep st)
        (trace.foldl ghostStep g) := by
  induction trace with
  | nil => intro st g h; exact h
  | cons ev tr ih => intro st g h; exact ih _ _ (counterSpec_step st g ev h)

/-- Each event adds one to the ghost executed counter. -/
theorem ghost_foldl_executed {n : Nat} (trace : List (Fin n × Bool)) :
    ∀ g : CounterGhost n,
      (trace.foldl ghostStep g).executed = g.executed + trace.length := by
  induction trace with
  | nil => intro g; simp
  | cons ev tr ih =>
      intro g
      rw [List.foldl_cons, ih]
      simp [ghostStep]
      omega

/-- Every event increments the ghost executed counter and exactly one of
the ghost passed/failed counters, so their balance is preserved. -/
theorem ghost_foldl_failed_passed {n : Nat} (trace : List (Fin n × Bool)) :
    ∀ g : CounterGhost n, g.failed + g.passed = g.executed →
      (trace.foldl ghostStep g).failed + (trace.foldl ghostStep g).passed =
        (trace.foldl ghostStep g).executed := by
  induction trace with
  | nil => intro g h; exact h
  | cons ev tr ih =>
      intro g h
      rw [List.foldl_cons]
      refine ih _ ?_
      cases hb : ev.2 <;> simp [ghostStep, hb] <;> omega

/-- Every event adds one both to the ghost executed counter and to exactly
one per-suite ghost counter, so executed stays the sum over suites. -/
theorem ghost_foldl_sum {n : Nat} (trace : List (Fin n × Bool)) :
    ∀ g : CounterGhost n,
      g.executed = Finset.univ.sum g.perSuite →
      (trace.foldl ghostStep g).executed =
        Finset.univ.sum (trace.foldl ghostStep g).perSuite := by
  induction trace with
  | nil => intro g h; exact h
  | cons ev tr ih =>
      intro g h
      rw [List.foldl_cons]
      refine ih _ ?_
      have h1 : g.perSuite ev.1
            + (Finset.univ.erase ev.1).sum g.perSuite
          = Finset.univ.sum g.perSuite :=
        Finset.add_sum_erase _ _ (Finset.mem_univ _)
      simp only [ghostStep]
      rw [Finset.sum_update_of_mem (Finset.mem_univ ev.1),
        Finset.sdiff_singleton_eq_erase]
      have h2 : Finset.univ.sum (fun x => g.perSuite x)
          = Finset.univ.sum g.perSuite := rfl
      have h3 : (Finset.univ.erase ev.1).sum (fun x => g.perSuite x)
          = (Finset.univ.erase ev.1).sum g.perSuite := rfl
      omega

/-- C5: over any finalizable run of processed-case events (fewer than
`2 ^ 32`, so the `unsigned` counters do not wrap), the failed
counter of the session plus its passed counter equals its executed
counter, and the executed counter of the session equals the sum of the
executed counters of all
its suite contexts.  (Finalization, `OnTestSessionComplete`, only sets the
`ready` flag and does not change any counter.) -/
theorem c5_session_counters_consistent (n : Nat)
    (trace : List (Fin n × Bool)) (h : trace.length < 2 ^ 32) :
    (runTestSessionTrace n trace).1.testCasesTotalFailed
        + (runTestSessionTrace n trace).1.testCasesTotalPassed
      = (runTestSessionTrace n trace).1.testCasesTotalExecuted
    ∧ (runTestSessionTrace n trace).1.testCasesTotalExecuted
      = Finset.univ.sum
          (fun i => ((runTestSessionTrace n trace).2 i).testCasesExecuted) := by
  have hspec : CounterSpec (runTestSessionTrace n trace) (ghostRun trace) := by
    refine counterSpec_foldl trace _ _ ?_
    exact ⟨by simp [mkFullContextForTestSession, unsignedWrap],
      by simp [mkFullContextForTestSession, unsignedWrap],
      by simp [mkFullContextForTestSession, unsignedWrap],
      fun i => by simp [mkFullContextForTestSuite, unsignedWrap]⟩
  obtain ⟨he, hp, hf, hs⟩ := hspec
  have hexe : (ghostRun trace).executed = trace.length := by
    have hx := ghost_foldl_executed trace
      (⟨0, 0, 0, fun _ => 0⟩ : CounterGhost n)
    simpa [ghostRun] using hx
  have hfp : (ghostRun trace).failed + (ghostRun trace).passed =
      (ghostRun trace).executed := by
    have hx := ghost_foldl_failed_passed trace
      (⟨0, 0, 0, fun _ => 0⟩ : CounterGhost n) (by simp)
    simpa [ghostRun] using hx
  have hsum : (ghostRun trace).executed =
      Finset.univ.sum (ghostRun trace).perSuite := by
    have hx := ghost_foldl_sum trace
      (⟨0, 0, 0, fun _ => 0⟩ : CounterGhost n) (by simp)
    simpa [ghostRun] using hx
  have hW : trace.length < unsignedWrap := h
  have hfe : (ghostRun trace).failed < unsignedWrap := by omega
  have hpe : (ghostRun trace).passed < unsignedWrap := by omega
  have hee : (ghostRun trace).executed < unsignedWrap := by omega
  constructor
  · rw [hf, hp, he, Nat.mod_eq_of_lt hfe, Nat.mod_eq_of_lt hpe,
      Nat.mod_eq_of_lt hee]
    exact hfp
  · rw [he, Nat.mod_eq_of_lt hee, hsum]
    refine Finset.sum_congr rfl (fun i _ => ?_)
    have hle : (ghostRun trace).perSuite i ≤
        Finset.univ.sum (ghostRun trace).perSuite :=
      Finset.single_le_sum (fun j _ => Nat.zero_le _) (Finset.mem_univ i)
    rw [hs i, Nat.mod_eq_of_lt (by omega)]

/-- C5 witness: a two-event run over one suite - one passed case, one
failed case - satisfies the length bound and both counter equalities. -/
theorem c5_session_counters_consistent_witness :
    ([((0 : Fin 1), true), ((0 : Fin 1), false)].length < 2 ^ 32)
    ∧ ((runTestSessionTrace 1
          [((0 : Fin 1), true), ((0 : Fin 1), false)]).1.testCasesTotalFailed
        + (runTestSessionTrace 1
          [((0 : Fin 1), true), ((0 : Fin 1), false)]).1.testCasesTotalPassed
      = (runTestSessionTrace 1
          [((0 : Fin 1), true), ((0 : Fin 1), false)]).1.testCasesTotalExecuted
    ∧ (runTestSessionTrace 1
          [((0 : Fin 1), true), ((0 : Fin 1), false)]).1.testCasesTotalExecuted
      = Finset.univ.sum
          (fun i => ((runTestSessionTrace 1
            [((0 : Fin 1), true), ((0 : Fin 1), false)]).2
              i).testCasesExecuted)) :=
  ⟨by decide,
   c5_session_counters_consistent 1 [((0 : Fin 1), true), ((0 : Fin 1), false)]
     (by decide)⟩

/-- C6: a case body whose checks reach a failed ASSERT (after a prefix of
non-raising checks) evaluates exactly the prefix and the failed ASSERT -
nothing after it - and raises `AssertCheckFailed`; `ExecuteTestCase` then
reports the case failed; and the session loop still runs every remaining
registered test case (the executed-unit sequence keeps all of them). -/
theorem c6_assert_failure_truncates_case (pre post : List Check)
    (others : List SimpleStandaloneTestRunner) (name file : String)
    (line : Nat) (hpre : ∀ c ∈ pre, c.raisesSignal = false) :
    (evalChecks (pre ++ Check.assert false :: post) true).1 =
        pre ++ [Check.assert false]
      ∧ (evalChecks (pre ++ Check.assert false :: post) true).2 =
        BodyOutcome.raised .assertCheckFailed
      ∧ ((mkFullContextForTestCase name file line).ExecuteTestCase
          (evalChecks (pre ++ Check.assert false :: post) true).2).1 = false
      ∧ RunTestsExecutedUnits
          (⟨file, line, name,
              (evalChecks (pre ++ Check.assert false :: post) true).2⟩
            :: others) [] =
        ExecutedUnit.standaloneCase name
          :: RunTestsExecutedUnits others [] := by
  have h := evalChecks_assert_fail pre post true hpre
  refine ⟨by rw [h], by rw [h], ?_, rfl⟩
  rw [h]
  rfl

/-- C6 witness: a concrete body EXPECT-pass, ASSERT-fail, EXPECT-fail - the
prefix raises nothing, the failed ASSERT ends evaluation, the trailing
EXPECT is never evaluated, the case verdict is failed, and the following
registered test is still executed. -/
theorem c6_assert_failure_truncates_case_witness :
    (∀ c ∈ [Check.expect true], c.raisesSignal = false)
      ∧ ((evalChecks
            ([Check.expect true] ++ Check.assert false :: [Check.expect false])
            true).1 = [Check.expect true] ++ [Check.assert false]
        ∧ (evalChecks
            ([Check.expect true] ++ Check.assert false :: [Check.expect false])
            true).2 = BodyOutcome.raised .assertCheckFailed
        ∧ ((mkFullContextForTestCase "T" "t.cpp" 7).ExecuteTestCase
            (evalChecks
              ([Check.expect true] ++ Check.assert false :: [Check.expect false])
              true).2).1 = false
        ∧ RunTestsExecutedUnits
            (⟨"t.cpp", 7, "T",
                (evalChecks
                  ([Check.expect true] ++ Check.assert false
                    :: [Check.expect false]) true).2⟩
              :: [⟨"t.cpp", 9, "U", .completed true⟩]) [] =
          ExecutedUnit.standaloneCase "T"
            :: RunTestsExecutedUnits
              [⟨"t.cpp", 9, "U", .completed true⟩] []) :=
  ⟨by decide,
   c6_assert_failure_truncates_case [Check.expect true] [Check.expect false]
     [⟨"t.cpp", 9, "U", .completed true⟩]
     "T" "t.cpp" 7 (by decide)⟩

/-- C7: the claim says `IsErrorOnStart()` is `true` iff the activity failed
before its body executed.  In the code all three overrides are `return
true; //TODO:` stubs, so even freshly constructed, normally starting
session, suite and case contexts report `IsErrorOnStart() = true`. -/
theorem c7_isErrorOnStart_always_true :
    (mkFullContextForTestSession "Test session").IsErrorOnStart = true
      ∧ (mkFullContextForTestSuite "DEFAULT"
          "DEFAULT test suite for simple TEST macro" 0).IsErrorOnStart = true
      ∧ (mkFullContextForTestCase "My test name" "main.cpp" 15).IsErrorOnStart
        = true := by
  exact ⟨rfl, rfl, rfl⟩

/-- Appending a fresh node to a straight chain: patching the old last link
to point at the new node and giving the new node a null link yields the
straight chain one longer. -/
theorem chainLinks_set_append (m : Nat) :
    ∀ i : Nat,
      (chainLinks i (m + 1)).set m (some (i + m + 1)) ++ [none] =
        chainLinks i (m + 2) := by
  induction m with
  | zero => intro i; simp [chainLinks]
  | succ k ih =>
      intro i
      have ha : i + (k + 1) + 1 = (i + 1) + k + 1 := by omega
      show (some (i + 1) :: chainLinks (i + 1) (k + 1)).set (k + 1)
          (some (i + (k + 1) + 1)) ++ [none]
        = some (i + 1) :: chainLinks (i + 1) (k + 2)
      rw [List.set_cons_succ, List.cons_append, ha, ih (i + 1)]

/-- Registering one more unit into the canonical registry of `vs` yields
the canonical registry of `vs ++ [a]` - the tail-pointer write extends the
chain at its end. -/
theorem registerInstance_canonical {α : Type} (vs : List α) (a : α) :
    (canonicalRegistry vs).registerInstance a =
      canonicalRegistry (vs ++ [a]) := by
  cases vs with
  | nil => rfl
  | cons x xs =>
      have hset := chainLinks_set_append xs.length 0
      rw [Nat.zero_add] at hset
      simp [CollectInstancesOf.registerInstance, canonicalRegistry, hset]

/-- Registering a discovery pass produces the canonical registry shape. -/
theorem registerAll_eq_canonical {α : Type} (vs : List α) :
    CollectInstancesOf.registerAll vs = canonicalRegistry vs := by
  induction vs using List.reverseRecOn with
  | nil => rfl
  | append_singleton l a ih =>
      have hstep : CollectInstancesOf.registerAll (l ++ [a]) =
          (CollectInstancesOf.registerAll l).registerInstance a := by
        unfold CollectInstancesOf.registerAll
        rw [List.foldl_append]
        rfl
      rw [hstep, ih]
      exact registerInstance_canonical l a

/-- Reading the `j`-th link of a straight chain of `m` nodes starting at
id `i`: the last node holds a null link, every other node points at the
next id. -/
theorem chainLinks_get (m : Nat) :
    ∀ i j : Nat, j < m →
      (chainLinks i m)[j]? =
        some (if j + 1 = m then none else some (i + j + 1)) := by
  induction m with
  | zero => intro i j hj; exact absurd hj (by omega)
  | succ k ih =>
      intro i j hj
      cases j with
      | zero =>
          cases k with
          | zero => simp [chainLinks]
          | succ k2 => simp [chainLinks]
      | succ j2 =>
          have hlt : j2 < k := by omega
          simp only [chainLinks, List.getElem?_cons_succ]
          rw [ih (i + 1) j2 hlt]
          by_cases hc : j2 + 1 = k
          · simp [hc]
          · have hc2 : ¬(j2 + 1 + 1 = k + 1) := by omega
            have ha : i + 1 + j2 + 1 = i + (j2 + 1) + 1 := by omega
            simp [hc, hc2, ha]

/-- A null pointer ends the walk at once, whatever fuel remains. -/
theorem visitFrom_none {α : Type} (r : CollectInstancesOf α) (fuel : Nat) :
    r.visitFrom fuel none = [] := by
  cases fuel <;> simp [CollectInstancesOf.visitFrom]

/-- Walking the canonical registry from node `k` with enough fuel visits
exactly the arena suffix from position `k`, in order. -/
theorem canonical_visitFrom {α : Type} (vs : List α) (fuel : Nat) :
    ∀ k : Nat, k < vs.length → vs.length ≤ k + fuel →
      (canonicalRegistry vs).visitFrom fuel (some k) = vs.drop k := by
  induction fuel with
  | zero => intro k h1 h2; exact absurd h2 (by omega)
  | succ f ih =>
      intro k h1 h2
      have hv : (canonicalRegistry vs).values[k]? = some vs[k] := by
        simp [canonicalRegistry, List.getElem?_eq_getElem h1]
      have hn : (canonicalRegistry vs).nextLinks[k]? =
          some (if k + 1 = vs.length then none else some (k + 1)) := by
        have hg := chainLinks_get vs.length 0 k h1
        rw [Nat.zero_add] at hg
        simpa [canonicalRegistry] using hg
      rw [CollectInstancesOf.visitFrom, hv, hn]
      by_cases hk : k + 1 = vs.length
      · rw [if_pos hk, List.drop_eq_getElem_cons h1]
        have hdrop : vs.drop (k + 1) = [] := by
          rw [hk]
          exact List.drop_length vs
        rw [hdrop]
        show vs[k] :: (canonicalRegistry vs).visitFrom f none = [vs[k]]
        rw [visitFrom_none]
      · have hlt : k + 1 < vs.length := by omega
        rw [if_neg hk, List.drop_eq_getElem_cons h1]
        show vs[k] :: (canonicalRegistry vs).visitFrom f (some (k + 1))
          = vs[k] :: vs.drop (k + 1)
        rw [ih (k + 1) hlt (by omega)]

/-- C9: after `ExecuteTestCase` runs any body on a freshly constructed case
context, `IsPassed()` still returns `false` - the stored flag is never
assigned from the execution result, whatever the body did. -/
theorem c9_isPassed_never_set (name file : String) (line : Nat)
    (body : BodyOutcome) :
    (((mkFullContextForTestCase name file line).ExecuteTestCase
        body).2).IsPassed = false := by
  cases body <;> rfl

/-- C8: registration appends each unit at the tail of the intrusive list,
and the `ForEachInstance` pointer walk visits exactly the registered units
in first-registered-first-visited order.  (The walk only reads `head` and
the `next` links, so in this embedding it is a pure function of the
registry: repeated traversals trivially agree and leave the list
unchanged.) -/
theorem c8_registry_preserves_order {α : Type} (vs : List α) :
    (CollectInstancesOf.registerAll vs).ForEachInstance = vs := by
  rw [registerAll_eq_canonical]
  cases vs with
  | nil => rfl
  | cons x xs =>
      have hh : (canonicalRegistry (x :: xs)).head = some 0 := by
        simp [canonicalRegistry]
      show (canonicalRegistry (x :: xs)).visitFrom
        (canonicalRegistry (x :: xs)).values.length
        (canonicalRegistry (x :: xs)).head = x :: xs
      rw [hh]
      have hv := canonical_visitFrom (x :: xs) (x :: xs).length 0
        (by simp) (by simp)
      simpa [canonicalRegistry] using hv

/-- C10: the claim says the `ProcessTestCases` loop started by
`RunTestSuite` stops after finitely many iterations.  In the code the case
iterator always returns a non-empty executor, so for every iteration bound
the loop is still running - `RunTestSuite` never returns. -/
theorem c10_runTestSuite_never_terminates
    (session : FullContextForTestSession) (suiteName file : String)
    (line fuel : Nat) :
    ∃ st, TestSuiteRunner.RunTestSuite session suiteName file line fuel =
      SuiteLoopResult.runningStill st := by
  exact processTestCases_dummy_spins fuel _

end InstantUnit
